import Mathlib

/-!
A verification development for the student-registry subsystem of the
`comp3000bot` Discord bot (`comp3000bot/manage_students.py`, the module the
bot actually loads, together with `comp3000bot/config.py`).

The embedding models Python object aliasing explicitly: `StudentInformation`
objects live in a heap addressed by `Nat` references, and the two `bidict`
indexes (`students : secret -> record` and `registered_students :
discord_id -> record`) store references into that heap, exactly as the two
Python dicts alias the same objects.  `bidict` value equality is Python
`==` on `StudentInformation`, which compares by `number` alone.
-/

set_option autoImplicit false

namespace Comp3000

instance instDecEqExcept {ε α : Type} [DecidableEq ε] [DecidableEq α] :
    DecidableEq (Except ε α) := fun a b =>
  match a, b with
  | .ok x, .ok y =>
    if h : x = y then isTrue (by rw [h])
    else isFalse (fun hc => h (Except.ok.inj hc))
  | .error x, .error y =>
    if h : x = y then isTrue (by rw [h])
    else isFalse (fun hc => h (Except.error.inj hc))
  | .ok _, .error _ => isFalse (fun hc => Except.noConfusion hc)
  | .error _, .ok _ => isFalse (fun hc => Except.noConfusion hc)

/-- Model of a Discord member: the fields the registry reads are
`member.name` and `member.id`. -/
structure Member where
  name : String
  id : Int
  deriving DecidableEq, Repr

/-- Shallow embedding of `StudentInformation`.  `discord_name` and
`discord_id` start as Python `None`; `secret` is the token drawn by
`generate_new_secret` (`token_hex(32)`), supplied as an explicit parameter
wherever the source draws a fresh one.  Python equality and hashing are by
`number` alone. -/
structure Student where
  name : String
  number : Int
  email : String
  discord_name : Option String
  discord_id : Option Int
  is_registered : Bool
  secret : String
  deriving DecidableEq, Repr

/-- `StudentInformation.__init__(name, number, email)`: a fresh, unregistered
record carrying the freshly generated secret. -/
def Student.make (name : String) (number : Int) (email : String)
    (secret : String) : Student :=
  { name := name, number := number, email := email, discord_name := none,
    discord_id := none, is_registered := false, secret := secret }

/-- `StudentInformation.register(member)`. -/
def Student.registerWith (st : Student) (member : Member) : Student :=
  { st with discord_name := some member.name, discord_id := some member.id,
            is_registered := true }

/-- `StudentInformation.reset()`. -/
def Student.resetInfo (st : Student) : Student :=
  { st with discord_name := none, discord_id := none, is_registered := false }

/-- The object heap: `StudentInformation` objects addressed by reference. -/
abbrev Heap := List (Nat × Student)

/-- Dereference a heap address. -/
def heapGet (h : Heap) (r : Nat) : Option Student :=
  (h.find? (fun p => p.1 == r)).map Prod.snd

/-- In-place mutation of the object at `r` (Python method call on the shared
object: every index holding `r` sees the update). -/
def heapModify (h : Heap) (r : Nat) (f : Student → Student) : Heap :=
  h.map (fun p => if p.1 == r then (p.1, f p.2) else p)

/-- The `number` of the object a bidict value references (`bidict` compares
values with Python `==`, i.e. by `number`). -/
def refNumber (h : Heap) (r : Nat) : Option Int :=
  (heapGet h r).map Student.number

section Bidict

variable {κ : Type} [DecidableEq κ]

/-- `bd[k]`: forward lookup. -/
def bdGet (l : List (κ × Nat)) (k : κ) : Option Nat :=
  (l.find? (fun p => p.1 == k)).map Prod.snd

/-- `bd.inverse[StudentInformation('', number, '')]`: the key of the entry
whose value has the given `number`. -/
def bdInv (h : Heap) (l : List (κ × Nat)) (number : Int) : Option κ :=
  (l.find? (fun p => refNumber h p.2 == some number)).map Prod.fst

/-- Is some entry's value equal (by `number`) to the object at `r`? -/
def bdHasValLike (h : Heap) (l : List (κ × Nat)) (r : Nat) : Bool :=
  l.any (fun p => refNumber h p.2 == refNumber h r)

/-- Delete the entry with key `k` (dict key removal). -/
def bdEraseKey (l : List (κ × Nat)) (k : κ) : List (κ × Nat) :=
  l.filter (fun p => !(p.1 == k))

/-- Delete the entry whose value is equal (by `number`) to the object at `r`. -/
def bdEraseValLike (h : Heap) (l : List (κ × Nat)) (r : Nat) : List (κ × Nat) :=
  l.filter (fun p => !(refNumber h p.2 == refNumber h r))

/-- The `bidict` duplication errors that `__setitem__` can raise.
`KeyAndValueDuplicationError` subclasses `ValueDuplicationError` in the
library, so handlers for the latter catch both. -/
inductive BdErr where
  | valueDuplication
  | keyAndValueDuplication
  deriving DecidableEq, Repr

/-- `bd[k] = v` under bidict's default policy `OnDup(key=DROP_OLD, val=RAISE,
kv=RAISE)`: writing an exact duplicate of an existing item (same key, equal
value) is a no-op that keeps the stored object; a key-only duplicate
overwrites the old item; a value-only duplicate raises
`ValueDuplicationError`; duplicating the key of one item and the value of a
different item raises `KeyAndValueDuplicationError`. -/
def bdSetItem (h : Heap) (l : List (κ × Nat)) (k : κ) (r : Nat) :
    Except BdErr (List (κ × Nat)) :=
  match bdGet l k with
  | some r0 =>
    if refNumber h r0 == refNumber h r then .ok l
    else if bdHasValLike h l r then .error .keyAndValueDuplication
    else .ok (bdEraseKey l k ++ [(k, r)])
  | none =>
    if bdHasValLike h l r then .error .valueDuplication
    else .ok (l ++ [(k, r)])

/-- `bd.forceput(k, v)` (policy `DROP_OLD` on key, value and item): drop any
item with this key and any item with an equal value, then insert; an exact
duplicate of an existing item is a no-op that keeps the stored object. -/
def bdForceput (h : Heap) (l : List (κ × Nat)) (k : κ) (r : Nat) :
    List (κ × Nat) :=
  match bdGet l k with
  | some r0 =>
    if refNumber h r0 == refNumber h r then l
    else bdEraseKey (bdEraseValLike h l r) k ++ [(k, r)]
  | none => bdEraseKey (bdEraseValLike h l r) k ++ [(k, r)]

/-- The exceptions the registry raises. -/
inductive PyErr where
  | keyError          -- `KeyError`: a lookup or pop missed
  | refusingToUpdate  -- `Exception('Refusing to update existing ...')`
  deriving DecidableEq, Repr

/-- `bd.pop(k)`: remove the entry with key `k` and return its value, raising
`KeyError` when absent. -/
def bdPop (l : List (κ × Nat)) (k : κ) :
    Except PyErr (Nat × List (κ × Nat)) :=
  match bdGet l k with
  | some r => .ok (r, bdEraseKey l k)
  | none => .error .keyError

end Bidict

/-- Shallow embedding of `StudentManager`: the two bidicts hold references
into the shared heap (in Python both dicts alias the same
`StudentInformation` objects).  `nextRef` is the next fresh address. -/
structure StudentManager where
  heap : Heap
  students : List (String × Nat)
  registered_students : List (Int × Nat)
  nextRef : Nat
  deriving DecidableEq, Repr

/-- `StudentManager.__init__`: two empty bidicts. -/
def StudentManager.empty : StudentManager := ⟨[], [], [], 0⟩

/-- `StudentManager.add_student(name, number, email, overwrite)`.  `secret` is
the token drawn by the `StudentInformation` constructor.  With `overwrite`
the new record is `forceput` into the secret index; otherwise plain item
assignment is tried and a `ValueDuplicationError` (or its subclass
`KeyAndValueDuplicationError`) is converted into the generic refusal
exception, in which case the constructed object is unreachable and the
manager is unchanged.  `registered_students` is never touched. -/
def add_student (m : StudentManager) (name : String) (number : Int)
    (email : String) (secret : String) (overwrite : Bool) :
    Except PyErr (StudentManager × Nat) :=
  let r := m.nextRef
  let heap := m.heap ++ [(r, Student.make name number email secret)]
  if overwrite then
    .ok ({ m with heap := heap, students := bdForceput heap m.students secret r,
                  nextRef := r + 1 }, r)
  else
    match bdSetItem heap m.students secret r with
    | .ok l => .ok ({ m with heap := heap, students := l, nextRef := r + 1 }, r)
    | .error _ => .error .refusingToUpdate

/-- `StudentManager.remove_student(number)`: find the secret via the inverse
index (`KeyError` when no record has that `number`), silently try to drop the
entry of that `number` from `registered_students`, then pop the secret. -/
def remove_student (m : StudentManager) (number : Int) :
    Except PyErr (StudentManager × Nat) :=
  match bdInv m.heap m.students number with
  | none => .error .keyError
  | some secret =>
    let reg :=
      match bdInv m.heap m.registered_students number with
      | some i => bdEraseKey m.registered_students i
      | none => m.registered_students
    match bdPop m.students secret with
    | .ok (r, l) =>
      .ok ({ m with students := l, registered_students := reg }, r)
    | .error e => .error e

/-- `StudentManager.reset_student(number)`: find the record via the inverse
index and call `StudentInformation.reset()` on it in place.  Neither index
is modified. -/
def reset_student (m : StudentManager) (number : Int) :
    Except PyErr (StudentManager × Nat) :=
  match bdInv m.heap m.students number with
  | none => .error .keyError
  | some secret =>
    match bdGet m.students secret with
    | none => .error .keyError
    | some r => .ok ({ m with heap := heapModify m.heap r Student.resetInfo }, r)

/-- `StudentManager.register_student(student, member)`: the object is mutated
by `student.register(member)` first, and only then is the identity-index
assignment attempted; a duplication error therefore propagates with the
record already rebound, so the (partially updated) state is returned
alongside the error. -/
def register_student (m : StudentManager) (r : Nat) (member : Member) :
    StudentManager × Nat × Option BdErr :=
  let m1 := { m with heap := heapModify m.heap r (fun st => st.registerWith member) }
  match bdSetItem m1.heap m1.registered_students member.id r with
  | .ok l => ({ m1 with registered_students := l }, r, none)
  | .error e => (m1, r, some e)

/-- `StudentManager.student_by_secret(secret)`. -/
def student_by_secret (m : StudentManager) (secret : String) :
    Except PyErr Nat :=
  match bdGet m.students secret with
  | some r => .ok r
  | none => .error .keyError

/-- `StudentManager.student_by_member(member)`, which looks up `member.id`. -/
def student_by_member_id (m : StudentManager) (id : Int) : Except PyErr Nat :=
  match bdGet m.registered_students id with
  | some r => .ok r
  | none => .error .keyError

/-- The outcomes of the `!secret` command that the code reports. -/
inductive CmdErr where
  | incorrectSecret        -- lookup failed: "Incorrect secret, please try again."
  | alreadyRegistered      -- "You are already registered ..."
  | indexDuplication (e : BdErr)  -- a bidict error escaping `register_student`
  deriving DecidableEq, Repr

/-- The registry-relevant behavior of the `!secret` command
(`ManageStudents.secret`): look the record up by secret, refuse when it
`is_registered`, otherwise call `register_student`.  Platform side effects
(nickname edit, role grant) are external and elided; the nickname-shortening
branch does not touch the registry. -/
def secretCommand (m : StudentManager) (member : Member) (your_secret : String) :
    StudentManager × Option CmdErr :=
  match student_by_secret m your_secret with
  | .error _ => (m, some .incorrectSecret)
  | .ok r =>
    match heapGet m.heap r with
    | none => (m, some .incorrectSecret)  -- index refs are always allocated
    | some st =>
      if st.is_registered then (m, some .alreadyRegistered)
      else
        match register_student m r member with
        | (m1, _, none) => (m1, none)
        | (m1, _, some e) => (m1, some (.indexDuplication e))

/-- `StudentInformation.csv_header()`. -/
def csv_header : List String := ["name", "number", "email", "discord_name", "secret"]

/-- `StudentInformation.csv_row()`; `csv.writer` renders Python `None` as the
empty string and the int `number` in decimal. -/
def csv_row (st : Student) : List String :=
  [st.name, toString st.number, st.email, st.discord_name.getD "", st.secret]

/-- `StudentManager.to_csv_file` via `generate_csv_file`: the header row
followed by one row per entry of `self.students.values()` (index refs are
always allocated; the empty-row default is dead). -/
def to_csv (m : StudentManager) : List (List String) :=
  csv_header :: m.students.map (fun p => ((heapGet m.heap p.2).map csv_row).getD [])

/-- The possible contents of the snapshot file: absent (`FileNotFoundError`
from `open`), unreadable or of the wrong shape (`pickle` failure or the
failed `assert type(obj) == cls`), or a valid pickled manager. -/
inductive Snapshot where
  | missing
  | corrupt
  | good (m : StudentManager)
  deriving DecidableEq, Repr

/-- The load failures. -/
inductive LoadErr where
  | fileNotFound
  | corruptData
  deriving DecidableEq, Repr

/-- `StudentManager.from_disk`. -/
def from_disk (snap : Snapshot) : Except LoadErr StudentManager :=
  match snap with
  | .missing => .error .fileNotFound
  | .corrupt => .error .corruptData
  | .good m => .ok m

/-- `StudentManager.create_or_load`: the bare `except Exception` makes any
load failure fall back to a fresh empty manager. -/
def create_or_load (snap : Snapshot) : StudentManager :=
  match from_disk snap with
  | .ok m => m
  | .error _ => StudentManager.empty

/-- Model of Python `int(s)` on a string: optional surrounding whitespace, an
optional sign, then decimal digits; anything else raises `ValueError`
(modelled as `none`). -/
def pyInt (s : String) : Option Int :=
  let t := s.trim
  if t.startsWith "-" then ((t.drop 1).toNat?).map (fun n => -(n : Int))
  else if t.startsWith "+" then ((t.drop 1).toNat?).map (fun n => (n : Int))
  else (t.toNat?).map (fun n => (n : Int))

/-- The two exceptions that abort `populate_from_csv_file` outside the
per-row `try` block. -/
inductive CsvAbort where
  | typeError   -- `reader = reader[1:]`: a `csv.reader` is not subscriptable
  | valueError  -- unpacking `for fname, lname, email, number in reader` failed
  deriving DecidableEq, Repr

/-- The observable outcome of a bulk import: the manager as mutated so far,
the two tallies, and whether an uncaught exception aborted the batch. -/
structure ImportResult where
  mgr : StudentManager
  success_count : Nat
  failed_count : Nat
  abort : Option CsvAbort
  deriving DecidableEq, Repr

/-- The row loop of `populate_from_csv_file`: unpack the row (a width
mismatch raises `ValueError` outside the `try`, aborting the batch with the
manager as mutated so far), evaluate `int(number)` (a failure is caught and
tallied), then `add_student` (a duplicate refusal is caught and tallied).
`secrets` supplies the fresh token for each record the loop constructs. -/
def populateRows (m : StudentManager) (rows : List (List String))
    (secrets : List String) (overwrite : Bool) (succ failed : Nat) :
    ImportResult :=
  match rows with
  | [] => ⟨m, succ, failed, none⟩
  | row :: rest =>
    match row with
    | [fname, lname, email, number] =>
      let name := fname ++ " " ++ lname
      match pyInt number with
      | none => populateRows m rest secrets overwrite succ (failed + 1)
      | some num =>
        match add_student m name num email (secrets.headD "") overwrite with
        | .ok (m1, _) => populateRows m1 rest secrets.tail overwrite (succ + 1) failed
        | .error _ => populateRows m rest secrets.tail overwrite succ (failed + 1)
    | _ => ⟨m, succ, failed, some .valueError⟩

/-- `populate_from_csv_file(ctx, fp, has_header, overwrite)`: with
`has_header` true the source evaluates `reader[1:]` on a `csv.reader`
object, which raises `TypeError` before any row is processed. -/
def populate_from_csv_file (m : StudentManager) (rows : List (List String))
    (has_header : Bool) (overwrite : Bool) (secrets : List String) :
    ImportResult :=
  if has_header then ⟨m, 0, 0, some .typeError⟩
  else populateRows m rows secrets overwrite 0 0

/-- The events the autosave machinery emits. -/
inductive BotEvent where
  | sleep (seconds : Int)  -- `await asyncio.sleep(config.AUTOSAVE_INTERVAL)`
  | save                   -- `self.save()`, i.e. `self.mgr.to_disk()`
  deriving DecidableEq, Repr

/-- `config.AUTOSAVE_INTERVAL = config('AUTOSAVE_INTERVAL', default=600,
cast=int)`: the environment value cast with `int`, defaulting to 600. -/
def AUTOSAVE_INTERVAL (env : Option String) : Option Int :=
  match env with
  | none => some 600
  | some v => pyInt v

/-- The events of the first `n` iterations of `ManageStudents._autosave`
(`while 1: await asyncio.sleep(config.AUTOSAVE_INTERVAL); self.save()`). -/
def autosaveEvents (interval : Int) : Nat → List BotEvent
  | 0 => []
  | n + 1 => autosaveEvents interval n ++ [.sleep interval, .save]

/-- `ManageStudents.__init__` runs `atexit.register(self.save)`; the hook
saves unconditionally, whatever the manager state. -/
def atexitHook (_m : StudentManager) : BotEvent := BotEvent.save

/-- The mutating manager operations reachable from the command layer. -/
inductive Op where
  | add (name : String) (number : Int) (email : String) (secret : String)
        (overwrite : Bool)
  | remove (number : Int)
  | reset (number : Int)
  | secretCmd (member : Member) (your_secret : String)

/-- The manager state after one command: an operation that raises leaves the
state it produced up to the raise (for `add`, `remove` and `reset` nothing
was mutated; `secretCommand` already returns the partial state). -/
def applyOp (m : StudentManager) : Op → StudentManager
  | .add name number email secret overwrite =>
    match add_student m name number email secret overwrite with
    | .ok (m1, _) => m1
    | .error _ => m
  | .remove number =>
    match remove_student m number with
    | .ok (m1, _) => m1
    | .error _ => m
  | .reset number =>
    match reset_student m number with
    | .ok (m1, _) => m1
    | .error _ => m
  | .secretCmd member s => (secretCommand m member s).1

/-! ### Concrete scenarios (used by counterexamples and witnesses)

A small roster history built through the command surface: create Ada's
record, let her claim it via `!secret` from Discord account id 42, and then
reset / overwrite it. -/

/-- A 64-hex-digit token of the shape `token_hex(32)` draws. -/
def secretA : String :=
  "aaaabbbbccccddddeeeeffff00001111aaaabbbbccccddddeeeeffff00001111"

/-- A second fresh token. -/
def secretB : String :=
  "2222333344445555666677778888999922223333444455556666777788889999"

/-- A third fresh token. -/
def secretC : String :=
  "0123456789abcdef0123456789abcdef0123456789abcdef0123456789abcdef"

/-- The roster after `add_student('Ada Lovelace', 1001, 'ada@example.com')`. -/
def mgrAdded : StudentManager :=
  match add_student StudentManager.empty "Ada Lovelace" 1001 "ada@example.com"
      secretA false with
  | .ok (m, _) => m
  | .error _ => StudentManager.empty

/-- ... after Ada claims her record with `!secret` from account
`(ada_disc, 42)`. -/
def mgrRegistered : StudentManager :=
  (secretCommand mgrAdded ⟨"ada_disc", 42⟩ secretA).1

/-- ... after the instructor runs `reset_student(1001)`. -/
def mgrReset : StudentManager :=
  match reset_student mgrRegistered 1001 with
  | .ok (m, _) => m
  | .error _ => mgrRegistered

/-- ... after the instructor re-creates Ada's record with `overwrite=True`
while she is still registered. -/
def mgrOverwritten : StudentManager :=
  match add_student mgrRegistered "Ada Lovelace" 1001 "ada2@example.com"
      secretB true with
  | .ok (m, _) => m
  | .error _ => mgrRegistered

/-- Ada's record as it stands in `mgrRegistered`. -/
def adaReg : Student :=
  Student.registerWith (Student.make "Ada Lovelace" 1001 "ada@example.com" secretA)
    ⟨"ada_disc", 42⟩

/-! ### Supporting lemmas about the heap and the bidict model -/

theorem heapGet_cons (p : Nat × Student) (t : Heap) (r : Nat) :
    heapGet (p :: t) r = if p.1 = r then some p.2 else heapGet t r := by
  by_cases h : p.1 = r <;> simp [heapGet, h]

theorem heapGet_append_of_some (h l2 : Heap) (r : Nat) (st : Student)
    (hg : heapGet h r = some st) : heapGet (h ++ l2) r = some st := by
  induction h with
  | nil => simp [heapGet] at hg
  | cons p t ih =>
    rw [List.cons_append, heapGet_cons]
    rw [heapGet_cons] at hg
    by_cases hp : p.1 = r
    · simpa [hp] using hg
    · rw [if_neg hp] at hg ⊢
      exact ih hg

theorem heapGet_append_of_none (h l2 : Heap) (r : Nat)
    (hg : heapGet h r = none) : heapGet (h ++ l2) r = heapGet l2 r := by
  induction h with
  | nil => simp
  | cons p t ih =>
    rw [List.cons_append, heapGet_cons]
    rw [heapGet_cons] at hg
    by_cases hp : p.1 = r
    · simp [hp] at hg
    · rw [if_neg hp] at hg ⊢
      exact ih hg

theorem heapGet_heapModify (h : Heap) (r x : Nat) (f : Student → Student) :
    heapGet (heapModify h r f) x =
      if x = r then (heapGet h x).map f else heapGet h x := by
  induction h with
  | nil => by_cases hx : x = r <;> simp [heapGet, heapModify, hx]
  | cons p t ih =>
    have hmod : heapModify (p :: t) r f =
        (if p.1 == r then (p.1, f p.2) else p) :: heapModify t r f := rfl
    rw [hmod]
    by_cases hpr : p.1 = r
    · rw [if_pos (by simpa using hpr)]
      by_cases hpx : p.1 = x
      · have hxr : x = r := hpx.symm.trans hpr
        rw [heapGet_cons, heapGet_cons]
        simp [hpx, hxr]
      · have hxr : ¬ x = r := fun hxr => hpx (hpr.trans hxr.symm)
        rw [heapGet_cons, heapGet_cons, if_neg hpx, if_neg hpx, ih, if_neg hxr]
    · rw [if_neg (by simpa using hpr)]
      by_cases hpx : p.1 = x
      · have hxr : ¬ x = r := fun hxr => hpr (hpx.trans hxr)
        rw [heapGet_cons, heapGet_cons, if_pos hpx, if_pos hpx, if_neg hxr]
      · rw [heapGet_cons, heapGet_cons, if_neg hpx, if_neg hpx, ih]

theorem refNumber_registerWith (h : Heap) (r x : Nat) (member : Member) :
    refNumber (heapModify h r (fun st => st.registerWith member)) x = refNumber h x := by
  unfold refNumber
  rw [heapGet_heapModify]
  by_cases hx : x = r
  · rw [if_pos hx]
    cases heapGet h x <;> simp [Student.registerWith]
  · rw [if_neg hx]

section BdLemmas

variable {κ : Type} [DecidableEq κ]

theorem bdGet_cons (p : κ × Nat) (t : List (κ × Nat)) (k : κ) :
    bdGet (p :: t) k = if p.1 = k then some p.2 else bdGet t k := by
  by_cases h : p.1 = k <;> simp [bdGet, h]

theorem bdGet_append_of_some (l1 l2 : List (κ × Nat)) (k : κ) (r : Nat)
    (hg : bdGet l1 k = some r) : bdGet (l1 ++ l2) k = some r := by
  induction l1 with
  | nil => simp [bdGet] at hg
  | cons p t ih =>
    rw [List.cons_append, bdGet_cons]
    rw [bdGet_cons] at hg
    by_cases hp : p.1 = k
    · simpa [hp] using hg
    · rw [if_neg hp] at hg ⊢
      exact ih hg

theorem bdGet_append_of_none (l1 l2 : List (κ × Nat)) (k : κ)
    (hg : bdGet l1 k = none) : bdGet (l1 ++ l2) k = bdGet l2 k := by
  induction l1 with
  | nil => simp
  | cons p t ih =>
    rw [List.cons_append, bdGet_cons]
    rw [bdGet_cons] at hg
    by_cases hp : p.1 = k
    · simp [hp] at hg
    · rw [if_neg hp] at hg ⊢
      exact ih hg

theorem bdGet_filter_eq_none (l : List (κ × Nat)) (q : κ × Nat → Bool) (k : κ)
    (h : ∀ p ∈ l, p.1 = k → q p = false) : bdGet (l.filter q) k = none := by
  have hfind : (l.filter q).find? (fun p => p.1 == k) = none := by
    rw [List.find?_eq_none]
    intro p hp
    rw [List.mem_filter] at hp
    intro hk
    rw [h p hp.1 (by simpa using hk)] at hp
    exact Bool.false_ne_true hp.2
  unfold bdGet
  rw [hfind]
  rfl

theorem bdGet_eraseKey_self (l : List (κ × Nat)) (k : κ) :
    bdGet (bdEraseKey l k) k = none := by
  apply bdGet_filter_eq_none
  intro p _ hk
  simp [hk]

theorem bdGet_eraseKey_ne (l : List (κ × Nat)) (k k2 : κ) (hne : k2 ≠ k) :
    bdGet (bdEraseKey l k) k2 = bdGet l k2 := by
  induction l with
  | nil => rfl
  | cons p t ih =>
    by_cases hp : p.1 = k
    · have hstep : bdEraseKey (p :: t) k = bdEraseKey t k := by
        simp [bdEraseKey, hp]
      rw [hstep, ih, bdGet_cons, if_neg (fun h => hne (h.symm.trans hp))]
    · have hstep : bdEraseKey (p :: t) k = p :: bdEraseKey t k := by
        simp [bdEraseKey, hp]
      rw [hstep, bdGet_cons, bdGet_cons, ih]

theorem bdGet_mem (l : List (κ × Nat)) (k : κ) (v : Nat)
    (h : bdGet l k = some v) : ∃ q ∈ l, q.1 = k ∧ q.2 = v := by
  unfold bdGet at h
  cases hf : l.find? (fun p => p.1 == k) with
  | none => rw [hf] at h; exact Option.noConfusion h
  | some q =>
    rw [hf] at h
    refine ⟨q, List.mem_of_find?_eq_some hf, ?_, Option.some.inj h⟩
    have hq := List.find?_some hf
    simpa using hq

theorem bdGet_filter_none_of_none (l : List (κ × Nat)) (q : κ × Nat → Bool) (k : κ)
    (h : bdGet l k = none) : bdGet (l.filter q) k = none := by
  apply bdGet_filter_eq_none
  intro p hp hk
  exfalso
  unfold bdGet at h
  cases hfind : l.find? (fun p => p.1 == k) with
  | some q2 => rw [hfind] at h; exact Option.noConfusion h
  | none =>
    rw [List.find?_eq_none] at hfind
    exact hfind p hp (by simpa using hk)

end BdLemmas

/-- On the non-overwrite path with a fresh secret, `add_student` either raises
the duplicate refusal (leaving the manager unchanged) or appends the new
record to the secret index. -/
theorem add_student_fresh_cases (m : StudentManager) (name : String) (n : Int)
    (email : String) (σ : String) (hfresh : bdGet m.students σ = none) :
    add_student m name n email σ false = .error .refusingToUpdate ∨
    add_student m name n email σ false =
      .ok ({ m with heap := m.heap ++ [(m.nextRef, Student.make name n email σ)],
                    students := m.students ++ [(σ, m.nextRef)],
                    nextRef := m.nextRef + 1 }, m.nextRef) := by
  unfold add_student bdSetItem
  rw [hfresh]
  by_cases hdup : bdHasValLike (m.heap ++ [(m.nextRef, Student.make name n email σ)])
      m.students m.nextRef = true
  · left
    simp [hdup]
  · right
    simp [hdup]

/-! ### Claims -/

/-- **C5.** At startup, any failure of the persisted-snapshot load — a missing
snapshot (`FileNotFoundError`) as well as an unreadable or wrongly shaped one
— is not propagated by `create_or_load`: it falls back to a fresh, empty
manager, so a damaged or missing snapshot never prevents startup.  Both
failure modes of `from_disk` are exhibited, and a good snapshot loads as is. -/
theorem c5_create_or_load_fallback :
    (∀ snap e, from_disk snap = .error e → create_or_load snap = StudentManager.empty) ∧
    from_disk Snapshot.missing = .error LoadErr.fileNotFound ∧
    from_disk Snapshot.corrupt = .error LoadErr.corruptData ∧
    (∀ m, create_or_load (Snapshot.good m) = m) := by
  refine ⟨?_, rfl, rfl, fun m => rfl⟩
  intro snap e h
  cases snap with
  | missing => rfl
  | corrupt => rfl
  | good m => exact absurd h (by simp [from_disk])

/-- Witness for C5 at the two concrete failing snapshots. -/
theorem c5_witness :
    create_or_load Snapshot.corrupt = StudentManager.empty ∧
    create_or_load Snapshot.missing = StudentManager.empty :=
  ⟨c5_create_or_load_fallback.1 Snapshot.corrupt LoadErr.corruptData (by rfl),
   c5_create_or_load_fallback.1 Snapshot.missing LoadErr.fileNotFound (by rfl)⟩

/-- **C6.** `add_student` with a `number` already present and `overwrite=false`
raises the duplicate refusal (`DuplicateError` in the spec's taxonomy), and
the manager is left entirely unchanged — the existing record keeps its
secret, registration state and all other fields, and no new record is added.
The hypotheses say the freshly drawn token is not an existing key and the
fresh heap address is unused, both of which hold in every state the program
builds. -/
theorem c6_duplicate_add_refused (m : StudentManager) (name : String) (n : Int)
    (email : String) (σ : String)
    (hdup : ∃ p ∈ m.students, refNumber m.heap p.2 = some n)
    (hfreshKey : bdGet m.students σ = none)
    (hfreshRef : heapGet m.heap m.nextRef = none) :
    add_student m name n email σ false = .error .refusingToUpdate ∧
    applyOp m (.add name n email σ false) = m := by
  have hmake : refNumber (m.heap ++ [(m.nextRef, Student.make name n email σ)])
      m.nextRef = some n := by
    unfold refNumber
    rw [heapGet_append_of_none _ _ _ hfreshRef]
    simp [heapGet, Student.make]
  have hhas : bdHasValLike (m.heap ++ [(m.nextRef, Student.make name n email σ)])
      m.students m.nextRef = true := by
    obtain ⟨p, hp, hnum⟩ := hdup
    apply List.any_eq_true.mpr
    refine ⟨p, hp, ?_⟩
    have hpn : refNumber (m.heap ++ [(m.nextRef, Student.make name n email σ)]) p.2
        = some n := by
      unfold refNumber at hnum ⊢
      cases hg : heapGet m.heap p.2 with
      | none => rw [hg] at hnum; exact absurd hnum (by simp)
      | some st =>
        rw [heapGet_append_of_some _ _ _ _ hg]
        rw [hg] at hnum
        exact hnum
    rw [hpn, hmake]
    simp
  have hset : bdSetItem (m.heap ++ [(m.nextRef, Student.make name n email σ)])
      m.students σ m.nextRef = .error .valueDuplication := by
    simp [bdSetItem, hfreshKey, hhas]
  have herr : add_student m name n email σ false = .error .refusingToUpdate := by
    simp [add_student, hset]
  exact ⟨herr, by simp [applyOp, herr]⟩

/-- Witness for C6: a second record with Ada's number 1001 is refused and the
roster is untouched. -/
theorem c6_witness :
    add_student mgrAdded "Imposter" 1001 "imp@example.com" secretB false
      = .error .refusingToUpdate ∧
    applyOp mgrAdded (.add "Imposter" 1001 "imp@example.com" secretB false)
      = mgrAdded :=
  c6_duplicate_add_refused mgrAdded "Imposter" 1001 "imp@example.com" secretB
    (by decide) (by decide) (by decide)

/-- **C7.** `remove_student(n)` on a present number returns the record and
deletes it from the secret index and — when the identity index holds an entry
for that number — from the identity index as well, so the subsequent
`find_by_secret` and `find_by_identity` lookups both raise `KeyError`
(`NotFoundError`); on an absent number it raises `KeyError`. -/
theorem c7_remove_clears_both_indexes :
    (∀ m n σ, bdInv m.heap m.students n = some σ →
      ∃ m1 r, remove_student m n = .ok (m1, r) ∧
        bdGet m.students σ = some r ∧
        student_by_secret m1 σ = .error .keyError ∧
        (∀ i, bdInv m.heap m.registered_students n = some i →
          student_by_member_id m1 i = .error .keyError) ∧
        (bdInv m.heap m.registered_students n = none →
          m1.registered_students = m.registered_students)) ∧
    (∀ m n, bdInv m.heap m.students n = none →
      remove_student m n = .error .keyError) := by
  constructor
  · intro m n σ hinv
    have hσ : ∃ r, bdGet m.students σ = some r := by
      unfold bdInv at hinv
      cases hfind : List.find? (fun p => refNumber m.heap p.2 == some n) m.students with
      | none => rw [hfind] at hinv; exact absurd hinv (by simp)
      | some p =>
        rw [hfind] at hinv
        have hpmem := List.mem_of_find?_eq_some hfind
        have hpk : p.1 = σ := by simpa using hinv
        have hsome : (List.find? (fun q => q.1 == σ) m.students).isSome := by
          rw [List.find?_isSome]
          exact ⟨p, hpmem, by simp [hpk]⟩
        cases hg : List.find? (fun q => q.1 == σ) m.students with
        | none => rw [hg] at hsome; simp at hsome
        | some q => exact ⟨q.2, by unfold bdGet; rw [hg]; rfl⟩
    obtain ⟨r, hr⟩ := hσ
    cases hreginv : bdInv m.heap m.registered_students n with
    | some i =>
      refine ⟨{ m with students := bdEraseKey m.students σ,
                       registered_students := bdEraseKey m.registered_students i },
        r, ?_, hr, ?_, ?_, ?_⟩
      · simp [remove_student, hinv, hreginv, bdPop, hr]
      · simp [student_by_secret, bdGet_eraseKey_self]
      · intro i2 hi2
        cases hi2
        simp [student_by_member_id, bdGet_eraseKey_self]
      · intro habs
        cases habs
    | none =>
      refine ⟨{ m with students := bdEraseKey m.students σ }, r, ?_, hr, ?_, ?_, ?_⟩
      · simp [remove_student, hinv, hreginv, bdPop, hr]
      · simp [student_by_secret, bdGet_eraseKey_self]
      · intro i2 hi2
        cases hi2
      · intro _
        rfl
  · intro m n habs
    simp [remove_student, habs]

/-- Witness for C7 at the concrete registered roster: removing number 1001
deletes Ada from both indexes, and removing an absent number fails. -/
theorem c7_witness :
    (∃ m1 r, remove_student mgrRegistered 1001 = .ok (m1, r) ∧
      bdGet mgrRegistered.students secretA = some r ∧
      student_by_secret m1 secretA = .error .keyError ∧
      (∀ i, bdInv mgrRegistered.heap mgrRegistered.registered_students 1001 = some i →
        student_by_member_id m1 i = .error .keyError) ∧
      (bdInv mgrRegistered.heap mgrRegistered.registered_students 1001 = none →
        m1.registered_students = mgrRegistered.registered_students)) ∧
    remove_student mgrRegistered 9999 = .error .keyError :=
  ⟨c7_remove_clears_both_indexes.1 mgrRegistered 1001 secretA (by decide),
   c7_remove_clears_both_indexes.2 mgrRegistered 9999 (by decide)⟩

/-- **C1 (amended).** `reset_student(n)` clears `is_registered` and the
platform-identity fields without changing the secret, and it leaves BOTH
indexes untouched: `find_by_secret` with the original secret still returns
the record, and — contrary to the claim — `find_by_identity` with the former
identity id ALSO still returns it, because the identity-index entry is not
removed. -/
theorem c1_reset_leaves_identity_index (m : StudentManager) (n : Int) (σ : String)
    (r : Nat) (st : Student)
    (hinv : bdInv m.heap m.students n = some σ)
    (hget : bdGet m.students σ = some r)
    (hheap : heapGet m.heap r = some st) :
    ∃ m1, reset_student m n = .ok (m1, r) ∧
      heapGet m1.heap r = some st.resetInfo ∧
      st.resetInfo.is_registered = false ∧
      st.resetInfo.secret = st.secret ∧
      m1.students = m.students ∧
      m1.registered_students = m.registered_students ∧
      student_by_secret m1 σ = .ok r ∧
      (∀ i, bdGet m.registered_students i = some r →
        student_by_member_id m1 i = .ok r) := by
  refine ⟨{ m with heap := heapModify m.heap r Student.resetInfo },
    ?_, ?_, rfl, rfl, rfl, rfl, ?_, ?_⟩
  · simp [reset_student, hinv, hget]
  · rw [heapGet_heapModify]
    simp [hheap]
  · simp [student_by_secret, hget]
  · intro i hi
    simp [student_by_member_id, hi]

/-- Witness for C1 (amended) at the registered roster. -/
theorem c1_witness :
    ∃ m1, reset_student mgrRegistered 1001 = .ok (m1, 0) ∧
      heapGet m1.heap 0 = some (Student.registerWith
        (Student.make "Ada Lovelace" 1001 "ada@example.com" secretA)
        ⟨"ada_disc", 42⟩).resetInfo ∧
      (Student.registerWith (Student.make "Ada Lovelace" 1001 "ada@example.com" secretA)
        ⟨"ada_disc", 42⟩).resetInfo.is_registered = false ∧
      (Student.registerWith (Student.make "Ada Lovelace" 1001 "ada@example.com" secretA)
        ⟨"ada_disc", 42⟩).resetInfo.secret =
      (Student.registerWith (Student.make "Ada Lovelace" 1001 "ada@example.com" secretA)
        ⟨"ada_disc", 42⟩).secret ∧
      m1.students = mgrRegistered.students ∧
      m1.registered_students = mgrRegistered.registered_students ∧
      student_by_secret m1 secretA = .ok 0 ∧
      (∀ i, bdGet mgrRegistered.registered_students i = some 0 →
        student_by_member_id m1 i = .ok 0) :=
  c1_reset_leaves_identity_index mgrRegistered 1001 secretA 0
    (Student.registerWith (Student.make "Ada Lovelace" 1001 "ada@example.com" secretA)
      ⟨"ada_disc", 42⟩)
    (by decide) (by decide) (by decide)

/-- **C1 counterexample.** After create → register (account id 42) → reset,
the claim says `find_by_identity(42)` fails; in the code the identity-index
entry survives the reset, and the lookup still returns the (now
unregistered) record. -/
theorem c1_counterexample :
    reset_student mgrRegistered 1001 = .ok (mgrReset, 0) ∧
    (heapGet mgrReset.heap 0).map Student.is_registered = some false ∧
    student_by_member_id mgrReset 42 = .ok 0 ∧
    student_by_member_id mgrReset 42 ≠ .error PyErr.keyError := by
  refine ⟨by decide, by decide, by decide, by decide⟩

theorem refNumber_append_of_some (h l2 : Heap) (r : Nat) (n : Int)
    (hg : refNumber h r = some n) : refNumber (h ++ l2) r = some n := by
  unfold refNumber at hg ⊢
  cases hget : heapGet h r with
  | none => rw [hget] at hg; exact absurd hg (by simp)
  | some st =>
    rw [heapGet_append_of_some _ _ _ _ hget]
    rw [hget] at hg
    exact hg

/-- **C3 (amended).** `add_student` with an existing `number` and
`overwrite=true` replaces the record in the SECRET index: the old secret no
longer resolves, the new secret resolves to the fresh, unregistered record.
But — contrary to the claim — the identity index is untouched: a stale entry
for the old record survives the overwrite, and `find_by_identity` with the
old identity id still returns the old, discarded record. -/
theorem c3_overwrite_replaces_secret_index_only (m : StudentManager) (n : Int)
    (σold σnew name email : String) (rold : Nat)
    (hold : bdGet m.students σold = some rold)
    (hkeys : ∀ p ∈ m.students, p.1 = σold → refNumber m.heap p.2 = some n)
    (hfreshKey : bdGet m.students σnew = none)
    (hfreshRef : heapGet m.heap m.nextRef = none) :
    ∃ m1, add_student m name n email σnew true = .ok (m1, m.nextRef) ∧
      student_by_secret m1 σold = .error .keyError ∧
      student_by_secret m1 σnew = .ok m.nextRef ∧
      heapGet m1.heap m.nextRef = some (Student.make name n email σnew) ∧
      (Student.make name n email σnew).is_registered = false ∧
      m1.registered_students = m.registered_students ∧
      (∀ i, bdGet m.registered_students i = some rold →
        student_by_member_id m1 i = .ok rold) := by
  have hne : σold ≠ σnew := by
    intro h
    rw [h, hfreshKey] at hold
    exact Option.noConfusion hold
  have hmake : refNumber (m.heap ++ [(m.nextRef, Student.make name n email σnew)])
      m.nextRef = some n := by
    unfold refNumber
    rw [heapGet_append_of_none _ _ _ hfreshRef]
    simp [heapGet, Student.make]
  refine ⟨{ m with
      heap := m.heap ++ [(m.nextRef, Student.make name n email σnew)],
      students := bdForceput (m.heap ++ [(m.nextRef, Student.make name n email σnew)])
        m.students σnew m.nextRef,
      nextRef := m.nextRef + 1 }, ?_, ?_, ?_, ?_, rfl, rfl, ?_⟩
  · simp [add_student]
  · have hfp : bdForceput (m.heap ++ [(m.nextRef, Student.make name n email σnew)])
        m.students σnew m.nextRef =
        bdEraseKey (bdEraseValLike
          (m.heap ++ [(m.nextRef, Student.make name n email σnew)])
          m.students m.nextRef) σnew ++ [(σnew, m.nextRef)] := by
      simp [bdForceput, hfreshKey]
    have hleft : bdGet (bdEraseKey (bdEraseValLike
        (m.heap ++ [(m.nextRef, Student.make name n email σnew)])
        m.students m.nextRef) σnew) σold = none := by
      rw [bdGet_eraseKey_ne _ _ _ hne]
      apply bdGet_filter_eq_none
      intro p hp hpk
      have hpn := refNumber_append_of_some m.heap
        [(m.nextRef, Student.make name n email σnew)] p.2 n (hkeys p hp hpk)
      rw [hpn, hmake]
      simp
    show student_by_secret _ σold = .error .keyError
    unfold student_by_secret
    rw [hfp]
    rw [bdGet_append_of_none _ _ _ hleft]
    rw [bdGet_cons]
    rw [if_neg (fun h => hne h.symm)]
    rfl
  · show student_by_secret _ σnew = .ok m.nextRef
    unfold student_by_secret
    have hfp : bdForceput (m.heap ++ [(m.nextRef, Student.make name n email σnew)])
        m.students σnew m.nextRef =
        bdEraseKey (bdEraseValLike
          (m.heap ++ [(m.nextRef, Student.make name n email σnew)])
          m.students m.nextRef) σnew ++ [(σnew, m.nextRef)] := by
      simp [bdForceput, hfreshKey]
    rw [hfp]
    rw [bdGet_append_of_none _ _ _ (bdGet_eraseKey_self _ _)]
    rw [bdGet_cons, if_pos rfl]
  · show heapGet (m.heap ++ [(m.nextRef, Student.make name n email σnew)]) m.nextRef
      = some (Student.make name n email σnew)
    rw [heapGet_append_of_none _ _ _ hfreshRef]
    simp [heapGet]
  · intro i hi
    simp [student_by_member_id, hi]

/-- Witness for C3 (amended): overwriting Ada's record while she is
registered. -/
theorem c3_witness :
    ∃ m1, add_student mgrRegistered "Ada Lovelace" 1001 "ada2@example.com"
        secretB true = .ok (m1, mgrRegistered.nextRef) ∧
      student_by_secret m1 secretA = .error .keyError ∧
      student_by_secret m1 secretB = .ok mgrRegistered.nextRef ∧
      heapGet m1.heap mgrRegistered.nextRef
        = some (Student.make "Ada Lovelace" 1001 "ada2@example.com" secretB) ∧
      (Student.make "Ada Lovelace" 1001 "ada2@example.com" secretB).is_registered
        = false ∧
      m1.registered_students = mgrRegistered.registered_students ∧
      (∀ i, bdGet mgrRegistered.registered_students i = some 0 →
        student_by_member_id m1 i = .ok 0) :=
  c3_overwrite_replaces_secret_index_only mgrRegistered 1001 secretA secretB
    "Ada Lovelace" "ada2@example.com" 0
    (by decide) (by decide) (by decide) (by decide)

/-- **C3 counterexample.** After overwriting registered Ada's record, the
claim says the old record's registration state — including its identity-index
entry — is discarded; in the code `find_by_identity(42)` still succeeds and
returns the stale old record, which still carries the old secret and is
still marked registered. -/
theorem c3_counterexample :
    add_student mgrRegistered "Ada Lovelace" 1001 "ada2@example.com" secretB true
      = .ok (mgrOverwritten, 1) ∧
    student_by_secret mgrOverwritten secretA = .error .keyError ∧
    student_by_member_id mgrOverwritten 42 = .ok 0 ∧
    student_by_member_id mgrOverwritten 42 ≠ .error PyErr.keyError ∧
    (heapGet mgrOverwritten.heap 0).map Student.is_registered = some true ∧
    (heapGet mgrOverwritten.heap 0).map Student.secret = some secretA := by
  refine ⟨by decide, by decide, by decide, by decide, by decide, by decide⟩

/-- **C8 (amended).** The CSV export is one header row followed by one row
per record of the secret index; each row carries name, number, email, the
external identity name (empty when unregistered) and the secret, and the
header names exactly those five columns — the external identity id is NOT
exported. -/
theorem c8_export_shape (m : StudentManager) :
    (to_csv m).length = m.students.length + 1 ∧
    (to_csv m).head? = some csv_header ∧
    csv_header = ["name", "number", "email", "discord_name", "secret"] ∧
    (∀ p ∈ m.students, ∀ st, heapGet m.heap p.2 = some st →
      csv_row st ∈ to_csv m ∧
      csv_row st = [st.name, toString st.number, st.email,
                    st.discord_name.getD "", st.secret]) := by
  refine ⟨by simp [to_csv], rfl, rfl, ?_⟩
  intro p hp st hst
  refine ⟨?_, rfl⟩
  unfold to_csv
  apply List.mem_cons_of_mem
  apply List.mem_map.mpr
  exact ⟨p, hp, by rw [hst]; rfl⟩

/-- Witness for C8 (amended) at the registered roster: Ada's row is in the
export and has the five-field shape. -/
theorem c8_witness :
    csv_row (Student.registerWith
        (Student.make "Ada Lovelace" 1001 "ada@example.com" secretA)
        ⟨"ada_disc", 42⟩) ∈ to_csv mgrRegistered ∧
    csv_row (Student.registerWith
        (Student.make "Ada Lovelace" 1001 "ada@example.com" secretA)
        ⟨"ada_disc", 42⟩) =
      ["Ada Lovelace", toString (1001 : Int), "ada@example.com", "ada_disc",
       secretA] :=
  (c8_export_shape mgrRegistered).2.2.2 (secretA, 0) (by decide)
    (Student.registerWith (Student.make "Ada Lovelace" 1001 "ada@example.com" secretA)
      ⟨"ada_disc", 42⟩) (by decide)

/-- **C8 counterexample.** The export of a roster with a registered student
(external identity id 42) contains no identity-id field: the header has five
columns, none named for the id, and "42" appears in no row, contradicting
"each row contains ... external identity id". -/
theorem c8_counterexample :
    to_csv mgrRegistered =
      [["name", "number", "email", "discord_name", "secret"],
       ["Ada Lovelace", "1001", "ada@example.com", "ada_disc", secretA]] ∧
    (heapGet mgrRegistered.heap 0).map Student.discord_id = some (some 42) ∧
    (∀ row ∈ to_csv mgrRegistered, "42" ∉ row) ∧
    csv_header.length ≠ 6 := by
  refine ⟨by decide, by decide, by decide, by decide⟩


/-- A successful `add_student` always extends the heap with the freshly
constructed record at the fresh address. -/
theorem add_student_heap (m : StudentManager) (name : String) (n : Int)
    (email σ : String) (ov : Bool) (m1 : StudentManager) (r : Nat)
    (h : add_student m name n email σ ov = .ok (m1, r)) :
    m1.heap = m.heap ++ [(m.nextRef, Student.make name n email σ)] := by
  unfold add_student at h
  by_cases hov : ov = true
  · rw [hov] at h
    simp at h
    rw [← h.1]
  · simp only [Bool.not_eq_true] at hov
    rw [hov] at h
    simp only [Bool.false_eq_true, if_false] at h
    cases hset : bdSetItem (m.heap ++ [(m.nextRef, Student.make name n email σ)])
        m.students σ m.nextRef with
    | ok l =>
      rw [hset] at h
      simp at h
      rw [← h.1]
    | error e =>
      rw [hset] at h
      exact Except.noConfusion h

/-- A successful `remove_student` never touches the heap (it only deletes
index entries; the popped object itself is returned to the caller). -/
theorem remove_student_heap (m : StudentManager) (n : Int) (m1 : StudentManager)
    (r : Nat) (h : remove_student m n = .ok (m1, r)) : m1.heap = m.heap := by
  cases hinv : bdInv m.heap m.students n with
  | none =>
    rw [show remove_student m n = .error .keyError by simp [remove_student, hinv]] at h
    exact Except.noConfusion h
  | some σ =>
    cases hget : bdGet m.students σ with
    | none =>
      rw [show remove_student m n = .error .keyError by
        simp [remove_student, hinv, bdPop, hget]] at h
      exact Except.noConfusion h
    | some r2 =>
      cases hreg : bdInv m.heap m.registered_students n with
      | some i =>
        rw [show remove_student m n = .ok ({ m with
            students := bdEraseKey m.students σ,
            registered_students := bdEraseKey m.registered_students i }, r2) by
          simp [remove_student, hinv, hreg, bdPop, hget]] at h
        rw [Except.ok.injEq, Prod.mk.injEq] at h
        rw [← h.1]
      | none =>
        rw [show remove_student m n = .ok ({ m with
            students := bdEraseKey m.students σ }, r2) by
          simp [remove_student, hinv, hreg, bdPop, hget]] at h
        rw [Except.ok.injEq, Prod.mk.injEq] at h
        rw [← h.1]

/-- The `!secret` command either leaves the heap alone or registers exactly
one record in place. -/
theorem secretCommand_heap (m : StudentManager) (member : Member) (s : String) :
    ((secretCommand m member s).1).heap = m.heap ∨
    ∃ r0, ((secretCommand m member s).1).heap
      = heapModify m.heap r0 (fun x => x.registerWith member) := by
  cases hfind : student_by_secret m s with
  | error e => left; simp [secretCommand, hfind]
  | ok r =>
    cases hg : heapGet m.heap r with
    | none => left; simp [secretCommand, hfind, hg]
    | some st =>
      by_cases hreg : st.is_registered = true
      · left
        simp [secretCommand, hfind, hg, hreg]
      · right
        refine ⟨r, ?_⟩
        simp only [Bool.not_eq_true] at hreg
        cases hset : bdSetItem (heapModify m.heap r (fun x => x.registerWith member))
            m.registered_students member.id r with
        | ok l => simp [secretCommand, hfind, hg, hreg, register_student, hset]
        | error e => simp [secretCommand, hfind, hg, hreg, register_student, hset]

/-- **C10 (amended).** The store-level `register_student` performs no
already-registered check of its own: even on an `is_registered` record it
first rebinds the record's platform-identity fields.  When the caller's
member id is already the record's identity-index key (the same account), the
index write is an exact-duplicate no-op and the call succeeds without error.
But when the identity index holds the record's number under a DIFFERENT key,
the index assignment raises `ValueDuplicationError` — after the record's
fields were already rebound — contrary to the claim's "does not fail".  The
`AlreadyRegisteredError` refusal exists only in the command layer, which
returns before invoking `register_student`. -/
theorem c10_register_student_no_check :
    (∀ m r member st rcur,
      heapGet m.heap r = some st →
      st.is_registered = true →
      bdGet m.registered_students member.id = some rcur →
      refNumber m.heap rcur = some st.number →
      register_student m r member =
        ({ m with heap := heapModify m.heap r (fun x => x.registerWith member) },
          r, none) ∧
      heapGet (register_student m r member).1.heap r
        = some (st.registerWith member)) ∧
    (∀ m r member st,
      heapGet m.heap r = some st →
      bdGet m.registered_students member.id = none →
      (∃ p ∈ m.registered_students, refNumber m.heap p.2 = some st.number) →
      (register_student m r member).2.2 = some BdErr.valueDuplication ∧
      (register_student m r member).1.registered_students
        = m.registered_students ∧
      heapGet (register_student m r member).1.heap r
        = some (st.registerWith member)) ∧
    (∀ m member s r st,
      student_by_secret m s = .ok r →
      heapGet m.heap r = some st →
      st.is_registered = true →
      secretCommand m member s = (m, some CmdErr.alreadyRegistered)) := by
  have hrefr : ∀ (m : StudentManager) r member (st : Student),
      heapGet m.heap r = some st →
      refNumber (heapModify m.heap r (fun x => x.registerWith member)) r
        = some st.number := by
    intro m r member st hheap
    rw [refNumber_registerWith]
    unfold refNumber
    rw [hheap]
    rfl
  refine ⟨?_, ?_, ?_⟩
  · intro m r member st rcur hheap hreg hcur hnum
    have hr1 : refNumber (heapModify m.heap r (fun x => x.registerWith member)) rcur
        = some st.number := by
      rw [refNumber_registerWith]
      exact hnum
    have hset : bdSetItem (heapModify m.heap r (fun x => x.registerWith member))
        m.registered_students member.id r = .ok m.registered_students := by
      simp [bdSetItem, hcur, hr1, hrefr m r member st hheap]
    constructor
    · simp [register_student, hset]
    · simp [register_student, hset, heapGet_heapModify, hheap]
  · intro m r member st hheap hkey hstale
    obtain ⟨p, hp, hpn⟩ := hstale
    have hhas : bdHasValLike (heapModify m.heap r (fun x => x.registerWith member))
        m.registered_students r = true := by
      apply List.any_eq_true.mpr
      refine ⟨p, hp, ?_⟩
      rw [refNumber_registerWith, hpn, hrefr m r member st hheap]
      simp
    have hset : bdSetItem (heapModify m.heap r (fun x => x.registerWith member))
        m.registered_students member.id r = .error .valueDuplication := by
      simp [bdSetItem, hkey, hhas]
    refine ⟨?_, ?_, ?_⟩
    · simp [register_student, hset]
    · simp [register_student, hset]
    · simp [register_student, hset, heapGet_heapModify, hheap]
  · intro m member s r st hfind hheap hreg
    simp [secretCommand, hfind, hheap, hreg]

/-- Witness for C10 (amended): re-registering Ada's registered record with
her own account succeeds with no error; with a different account the index
write raises `ValueDuplicationError`; and the command layer refuses with
`AlreadyRegisteredError` before calling `register_student`. -/
theorem c10_witness :
    (register_student mgrRegistered 0 ⟨"ada_disc", 42⟩ =
      ({ mgrRegistered with
          heap := heapModify mgrRegistered.heap 0
            (fun x => x.registerWith ⟨"ada_disc", 42⟩) }, 0, none) ∧
     heapGet (register_student mgrRegistered 0 ⟨"ada_disc", 42⟩).1.heap 0
        = some (adaReg.registerWith ⟨"ada_disc", 42⟩)) ∧
    ((register_student mgrRegistered 0 ⟨"eve_disc", 99⟩).2.2
        = some BdErr.valueDuplication ∧
     (register_student mgrRegistered 0 ⟨"eve_disc", 99⟩).1.registered_students
        = mgrRegistered.registered_students ∧
     heapGet (register_student mgrRegistered 0 ⟨"eve_disc", 99⟩).1.heap 0
        = some (adaReg.registerWith ⟨"eve_disc", 99⟩)) ∧
    secretCommand mgrRegistered ⟨"eve_disc", 99⟩ secretA
      = (mgrRegistered, some CmdErr.alreadyRegistered) :=
  ⟨c10_register_student_no_check.1 mgrRegistered 0 ⟨"ada_disc", 42⟩ adaReg 0
      (by decide) (by decide) (by decide) (by decide),
   c10_register_student_no_check.2.1 mgrRegistered 0 ⟨"eve_disc", 99⟩ adaReg
      (by decide) (by decide) ⟨(42, 0), by decide, by decide⟩,
   c10_register_student_no_check.2.2 mgrRegistered ⟨"eve_disc", 99⟩ secretA 0 adaReg
      (by decide) (by decide) (by decide)⟩

/-- **C10 counterexample.** Ada's record is registered (index entry `42 ↦
record`); `register_student` with a different member (id 99) does NOT
"rebind and insert or update the identity-index entry for member.id": it
raises `ValueDuplicationError` and no entry for key 99 is created. -/
theorem c10_counterexample :
    (heapGet mgrRegistered.heap 0).map Student.is_registered = some true ∧
    (register_student mgrRegistered 0 ⟨"eve_disc", 99⟩).2.2
      = some BdErr.valueDuplication ∧
    bdGet (register_student mgrRegistered 0 ⟨"eve_disc", 99⟩).1.registered_students 99
      = none := by
  refine ⟨by decide, by decide, by decide⟩

/-- **C4 (amended).** For every unregistered record reachable by secret `s`
whose `number` has no entry in the identity index (true in every roster not
shaped by the reset/overwrite staleness of C1/C3), the `!secret` registration
succeeds: it sets `is_registered`, binds the platform identity, makes
`find_by_identity(member.id)` return the record, and any further `!secret`
with the same secret fails with the already-registered refusal.  Moreover
`reset` is the only manager operation that ever turns a record's
`is_registered` from true to false. -/
theorem c4_register_state_machine :
    (∀ m member s r st,
      student_by_secret m s = .ok r →
      heapGet m.heap r = some st →
      st.is_registered = false →
      (∀ p ∈ m.registered_students, refNumber m.heap p.2 ≠ some st.number) →
      ∃ m1, secretCommand m member s = (m1, none) ∧
        heapGet m1.heap r = some (st.registerWith member) ∧
        (st.registerWith member).is_registered = true ∧
        (st.registerWith member).discord_id = some member.id ∧
        student_by_member_id m1 member.id = .ok r ∧
        (∀ member2, secretCommand m1 member2 s
          = (m1, some CmdErr.alreadyRegistered))) ∧
    (∀ m op r st st1,
      heapGet m.heap r = some st →
      st.is_registered = true →
      heapGet (applyOp m op).heap r = some st1 →
      st1.is_registered = false →
      ∃ k, op = Op.reset k) := by
  constructor
  · intro m member s r st hfind hheap hunreg hclean
    have hfind1 : bdGet m.students s = some r := by
      unfold student_by_secret at hfind
      cases hg : bdGet m.students s with
      | none => rw [hg] at hfind; exact Except.noConfusion hfind
      | some r2 =>
        rw [hg] at hfind
        obtain rfl : r2 = r := Except.ok.inj hfind
        rfl
    have hr2 : refNumber (heapModify m.heap r (fun x => x.registerWith member)) r
        = some st.number := by
      rw [refNumber_registerWith]
      unfold refNumber
      rw [hheap]
      rfl
    have hhas : bdHasValLike (heapModify m.heap r (fun x => x.registerWith member))
        m.registered_students r = false := by
      rw [bdHasValLike, List.any_eq_false]
      intro p hp
      rw [refNumber_registerWith, hr2]
      simpa using hclean p hp
    have hmain : ∀ (l1 : List (Int × Nat)),
        bdSetItem (heapModify m.heap r (fun x => x.registerWith member))
          m.registered_students member.id r = .ok l1 →
        bdGet l1 member.id = some r →
        ∃ m1, secretCommand m member s = (m1, none) ∧
          heapGet m1.heap r = some (st.registerWith member) ∧
          (st.registerWith member).is_registered = true ∧
          (st.registerWith member).discord_id = some member.id ∧
          student_by_member_id m1 member.id = .ok r ∧
          (∀ member2, secretCommand m1 member2 s
            = (m1, some CmdErr.alreadyRegistered)) := by
      intro l1 hset hl1
      refine ⟨{ m with
          heap := heapModify m.heap r (fun x => x.registerWith member),
          registered_students := l1 }, ?_, ?_, rfl, rfl, ?_, ?_⟩
      · simp [secretCommand, hfind, hheap, hunreg, register_student, hset]
      · simp [heapGet_heapModify, hheap]
      · simp [student_by_member_id, hl1]
      · intro member2
        have hfind2 : student_by_secret
            { m with heap := heapModify m.heap r (fun x => x.registerWith member),
                     registered_students := l1 } s = .ok r := by
          simp [student_by_secret, hfind1]
        have hheap2 : heapGet (heapModify m.heap r (fun x => x.registerWith member)) r
            = some (st.registerWith member) := by
          simp [heapGet_heapModify, hheap]
        have hregtrue : (st.registerWith member).is_registered = true := rfl
        simp [secretCommand, hfind2, hheap2, hregtrue]
    cases hkey : bdGet m.registered_students member.id with
    | none =>
      have hset : bdSetItem (heapModify m.heap r (fun x => x.registerWith member))
          m.registered_students member.id r
          = .ok (m.registered_students ++ [(member.id, r)]) := by
        simp [bdSetItem, hkey, hhas]
      apply hmain _ hset
      rw [bdGet_append_of_none _ _ _ hkey, bdGet_cons, if_pos rfl]
    | some rcur =>
      have hrcur : refNumber (heapModify m.heap r (fun x => x.registerWith member)) rcur
          ≠ some st.number := by
        obtain ⟨q, hq, hq1, hq2⟩ := bdGet_mem m.registered_students member.id rcur hkey
        rw [refNumber_registerWith]
        rw [← hq2]
        exact hclean q hq
      have hrcurb : (refNumber (heapModify m.heap r (fun x => x.registerWith member)) rcur
          == some st.number) = false := by
        rw [beq_eq_false_iff_ne]
        exact hrcur
      have hset : bdSetItem (heapModify m.heap r (fun x => x.registerWith member))
          m.registered_students member.id r
          = .ok (bdEraseKey m.registered_students member.id ++ [(member.id, r)]) := by
        simp [bdSetItem, hkey, hr2, hrcurb, hhas]
      apply hmain _ hset
      rw [bdGet_append_of_none _ _ _ (bdGet_eraseKey_self _ _), bdGet_cons, if_pos rfl]
  · intro m op r st st1 hheap hregd hheap1 hunregd
    cases op with
    | add name number email secret overwrite =>
      exfalso
      cases hadd : add_student m name number email secret overwrite with
      | error e =>
        rw [applyOp, hadd] at hheap1
        rw [hheap] at hheap1
        obtain rfl : st = st1 := Option.some.inj hheap1
        rw [hregd] at hunregd
        exact Bool.noConfusion hunregd
      | ok pr =>
        have hhp := add_student_heap m name number email secret overwrite pr.1 pr.2
          (by rw [hadd])
        rw [applyOp, hadd] at hheap1
        rw [hhp, heapGet_append_of_some _ _ _ _ hheap] at hheap1
        obtain rfl : st = st1 := Option.some.inj hheap1
        rw [hregd] at hunregd
        exact Bool.noConfusion hunregd
    | remove number =>
      exfalso
      cases hrem : remove_student m number with
      | error e =>
        rw [applyOp, hrem] at hheap1
        rw [hheap] at hheap1
        obtain rfl : st = st1 := Option.some.inj hheap1
        rw [hregd] at hunregd
        exact Bool.noConfusion hunregd
      | ok pr =>
        have hhp := remove_student_heap m number pr.1 pr.2 (by rw [hrem])
        rw [applyOp, hrem] at hheap1
        rw [hhp, hheap] at hheap1
        obtain rfl : st = st1 := Option.some.inj hheap1
        rw [hregd] at hunregd
        exact Bool.noConfusion hunregd
    | reset number => exact ⟨number, rfl⟩
    | secretCmd member s =>
      exfalso
      rcases secretCommand_heap m member s with hcase | ⟨r0, hcase⟩
      · rw [applyOp, hcase, hheap] at hheap1
        obtain rfl : st = st1 := Option.some.inj hheap1
        rw [hregd] at hunregd
        exact Bool.noConfusion hunregd
      · rw [applyOp, hcase, heapGet_heapModify] at hheap1
        by_cases hr0 : r = r0
        · rw [if_pos hr0, hheap] at hheap1
          obtain rfl : st.registerWith member = st1 := Option.some.inj hheap1
          simp [Student.registerWith] at hunregd
        · rw [if_neg hr0, hheap] at hheap1
          obtain rfl : st = st1 := Option.some.inj hheap1
          rw [hregd] at hunregd
          exact Bool.noConfusion hunregd

/-- Witness for C4 (amended): Ada claims her fresh record from account 42 in
a clean roster, and resetting is exhibited as the flag-clearing operation. -/
theorem c4_witness :
    (∃ m1, secretCommand mgrAdded ⟨"ada_disc", 42⟩ secretA = (m1, none) ∧
      heapGet m1.heap 0 = some ((Student.make "Ada Lovelace" 1001
        "ada@example.com" secretA).registerWith ⟨"ada_disc", 42⟩) ∧
      ((Student.make "Ada Lovelace" 1001 "ada@example.com"
        secretA).registerWith ⟨"ada_disc", 42⟩).is_registered = true ∧
      ((Student.make "Ada Lovelace" 1001 "ada@example.com"
        secretA).registerWith ⟨"ada_disc", 42⟩).discord_id = some 42 ∧
      student_by_member_id m1 42 = .ok 0 ∧
      (∀ member2, secretCommand m1 member2 secretA
        = (m1, some CmdErr.alreadyRegistered))) ∧
    (∃ k, Op.reset 1001 = Op.reset k) :=
  ⟨c4_register_state_machine.1 mgrAdded ⟨"ada_disc", 42⟩ secretA 0
      (Student.make "Ada Lovelace" 1001 "ada@example.com" secretA)
      (by decide) (by decide) (by decide) (by decide),
   c4_register_state_machine.2 mgrRegistered (Op.reset 1001) 0 adaReg
      adaReg.resetInfo (by decide) (by decide) (by decide) (by decide)⟩

/-- **C4 counterexample.** After a reset (which, per C1, leaves the stale
identity-index entry `42 ↦ record`), Ada's record is unregistered and
reachable by its secret, yet `!secret` from a different account (id 43) does
not register it: the identity-index write raises `ValueDuplicationError`
rather than succeeding or reporting `AlreadyRegisteredError`, and
`find_by_identity(43)` fails — contradicting the claim's "for every
unregistered record reachable by secret s". -/
theorem c4_counterexample :
    (heapGet mgrReset.heap 0).map Student.is_registered = some false ∧
    student_by_secret mgrReset secretA = .ok 0 ∧
    (secretCommand mgrReset ⟨"bob_disc", 43⟩ secretA).2
      = some (CmdErr.indexDuplication BdErr.valueDuplication) ∧
    student_by_member_id (secretCommand mgrReset ⟨"bob_disc", 43⟩ secretA).1 43
      = .error PyErr.keyError := by
  refine ⟨by decide, by decide, by decide, by decide⟩

/-- The row loop of the bulk import, for width-4 rows and fresh distinct
secrets: it never aborts, processes each row independently, and grows the
secret index by exactly the number of successes. -/
theorem populateRows_spec (rows : List (List String)) :
    ∀ (m : StudentManager) (secrets : List String) (succ failed : Nat),
    (∀ row ∈ rows, row.length = 4) →
    secrets.Pairwise (· ≠ ·) →
    (∀ σ ∈ secrets, bdGet m.students σ = none) →
    rows.length ≤ secrets.length →
    (populateRows m rows secrets false succ failed).abort = none ∧
    (populateRows m rows secrets false succ failed).success_count
      + (populateRows m rows secrets false succ failed).failed_count
      = succ + failed + rows.length ∧
    (populateRows m rows secrets false succ failed).mgr.students.length + succ
      = m.students.length
        + (populateRows m rows secrets false succ failed).success_count := by
  induction rows with
  | nil =>
    intro m secrets succ failed _ _ _ _
    refine ⟨rfl, by simp [populateRows], by simp [populateRows]⟩
  | cons row rest ih =>
    intro m secrets succ failed hw hdist hfresh hlen
    have hrow : row.length = 4 := hw row (List.mem_cons_self _ _)
    obtain ⟨a, b, c, d, rfl⟩ : ∃ a b c d, row = [a, b, c, d] := by
      cases row with
      | nil => simp at hrow
      | cons a t1 =>
        cases t1 with
        | nil => simp at hrow
        | cons b t2 =>
          cases t2 with
          | nil => simp at hrow
          | cons c t3 =>
            cases t3 with
            | nil => simp at hrow
            | cons d t4 =>
              cases t4 with
              | nil => exact ⟨a, b, c, d, rfl⟩
              | cons e t5 => simp at hrow
    obtain ⟨σ0, stail, rfl⟩ : ∃ σ0 stail, secrets = σ0 :: stail := by
      cases secrets with
      | nil => simp at hlen
      | cons σ0 stail => exact ⟨σ0, stail, rfl⟩
    have hlc1 : ([a, b, c, d] :: rest).length = rest.length + 1 := rfl
    have hlc2 : (σ0 :: stail).length = stail.length + 1 := rfl
    have hw1 : ∀ r2 ∈ rest, r2.length = 4 :=
      fun r2 hr2 => hw r2 (List.mem_cons_of_mem _ hr2)
    have hdist1 : stail.Pairwise (· ≠ ·) := (List.pairwise_cons.mp hdist).2
    have hσ0 : ∀ σ ∈ stail, σ0 ≠ σ := (List.pairwise_cons.mp hdist).1
    have hfresh1 : ∀ σ ∈ stail, bdGet m.students σ = none :=
      fun σ hσ => hfresh σ (List.mem_cons_of_mem _ hσ)
    have hlen1 : rest.length ≤ stail.length := by
      simpa using Nat.le_of_succ_le_succ (by simpa using hlen)
    cases hpy : pyInt d with
    | none =>
      have hred : populateRows m ([a, b, c, d] :: rest) (σ0 :: stail) false succ failed
          = populateRows m rest (σ0 :: stail) false succ (failed + 1) := by
        simp [populateRows, hpy]
      rw [hred]
      obtain ⟨g1, g2, g3⟩ := ih m (σ0 :: stail) succ (failed + 1) hw1 hdist hfresh
        (Nat.le_succ_of_le hlen1)
      exact ⟨g1, by omega, by omega⟩
    | some num =>
      rcases add_student_fresh_cases m (a ++ " " ++ b) num c σ0
          (hfresh σ0 (List.mem_cons_self _ _)) with herr | hok
      · have hred : populateRows m ([a, b, c, d] :: rest) (σ0 :: stail) false succ failed
            = populateRows m rest stail false succ (failed + 1) := by
          simp [populateRows, hpy, herr]
        rw [hred]
        obtain ⟨g1, g2, g3⟩ := ih m stail succ (failed + 1) hw1 hdist1 hfresh1 hlen1
        exact ⟨g1, by omega, by omega⟩
      · have hred : populateRows m ([a, b, c, d] :: rest) (σ0 :: stail) false succ failed
            = populateRows { m with
                heap := m.heap ++ [(m.nextRef, Student.make (a ++ " " ++ b) num c σ0)],
                students := m.students ++ [(σ0, m.nextRef)],
                nextRef := m.nextRef + 1 } rest stail false (succ + 1) failed := by
          simp [populateRows, hpy, hok]
        rw [hred]
        have hfresh2 : ∀ σ ∈ stail,
            bdGet (m.students ++ [(σ0, m.nextRef)]) σ = none := by
          intro σ hσ
          rw [bdGet_append_of_none _ _ _ (hfresh1 σ hσ), bdGet_cons,
            if_neg (hσ0 σ hσ)]
          rfl
        obtain ⟨g1, g2, g3⟩ := ih { m with
            heap := m.heap ++ [(m.nextRef, Student.make (a ++ " " ++ b) num c σ0)],
            students := m.students ++ [(σ0, m.nextRef)],
            nextRef := m.nextRef + 1 } stail (succ + 1) failed hw1 hdist1 hfresh2 hlen1
        refine ⟨g1, by omega, ?_⟩
        have hlen2 : ({ m with
            heap := m.heap ++ [(m.nextRef, Student.make (a ++ " " ++ b) num c σ0)],
            students := m.students ++ [(σ0, m.nextRef)],
            nextRef := m.nextRef + 1 } : StudentManager).students.length
            = m.students.length + 1 := by
          simp
        omega

/-- **C2 (amended).** With `has_header=false` and every row of width 4, the
bulk import processes rows independently and never aborts: a row whose
`number` does not parse as an integer, or that duplicates an existing number
without overwrite, increments `failed_count` and is skipped while the rest
of the batch continues; `success_count + failed_count = N` and exactly
`success_count` new records are added.  (Contrary to the claim, a row of the
wrong width is NOT tallied: it aborts the whole batch — see the
counterexample — and `has_header=true` aborts immediately.) -/
theorem c2_import_rows_independent (rows : List (List String))
    (m : StudentManager) (secrets : List String)
    (hw : ∀ row ∈ rows, row.length = 4)
    (hdist : secrets.Pairwise (· ≠ ·))
    (hfresh : ∀ σ ∈ secrets, bdGet m.students σ = none)
    (hlen : rows.length ≤ secrets.length) :
    (populate_from_csv_file m rows false false secrets).abort = none ∧
    (populate_from_csv_file m rows false false secrets).success_count
      + (populate_from_csv_file m rows false false secrets).failed_count
      = rows.length ∧
    (populate_from_csv_file m rows false false secrets).mgr.students.length
      = m.students.length
        + (populate_from_csv_file m rows false false secrets).success_count := by
  have hmain := populateRows_spec rows m secrets 0 0 hw hdist hfresh hlen
  have hdef : populate_from_csv_file m rows false false secrets
      = populateRows m rows secrets false 0 0 := rfl
  rw [hdef]
  exact ⟨hmain.1, by omega, by omega⟩

/-- Witness for C2 (amended): a batch of three width-4 rows — one good, one
with a non-integer number, one duplicating the first row's number — yields
success 1, failure 2, no abort, one record. -/
theorem c2_witness :
    (populate_from_csv_file StudentManager.empty
      [["Ada", "Lovelace", "ada@example.com", "1001"],
       ["Bob", "Marley", "bob@example.com", "not-a-number"],
       ["Cid", "Nstrom", "cid@example.com", "1001"]]
      false false [secretA, secretB, secretC]).abort = none ∧
    (populate_from_csv_file StudentManager.empty
      [["Ada", "Lovelace", "ada@example.com", "1001"],
       ["Bob", "Marley", "bob@example.com", "not-a-number"],
       ["Cid", "Nstrom", "cid@example.com", "1001"]]
      false false [secretA, secretB, secretC]).success_count
      + (populate_from_csv_file StudentManager.empty
      [["Ada", "Lovelace", "ada@example.com", "1001"],
       ["Bob", "Marley", "bob@example.com", "not-a-number"],
       ["Cid", "Nstrom", "cid@example.com", "1001"]]
      false false [secretA, secretB, secretC]).failed_count = 3 ∧
    (populate_from_csv_file StudentManager.empty
      [["Ada", "Lovelace", "ada@example.com", "1001"],
       ["Bob", "Marley", "bob@example.com", "not-a-number"],
       ["Cid", "Nstrom", "cid@example.com", "1001"]]
      false false [secretA, secretB, secretC]).mgr.students.length
      = StudentManager.empty.students.length
        + (populate_from_csv_file StudentManager.empty
      [["Ada", "Lovelace", "ada@example.com", "1001"],
       ["Bob", "Marley", "bob@example.com", "not-a-number"],
       ["Cid", "Nstrom", "cid@example.com", "1001"]]
      false false [secretA, secretB, secretC]).success_count :=
  c2_import_rows_independent
    [["Ada", "Lovelace", "ada@example.com", "1001"],
     ["Bob", "Marley", "bob@example.com", "not-a-number"],
     ["Cid", "Nstrom", "cid@example.com", "1001"]]
    StudentManager.empty [secretA, secretB, secretC]
    (by decide) (by decide) (by decide) (by decide)

/-- **C2 counterexample.** A batch of one row with the wrong column count:
the claim demands `failure_count = 1` and a completed batch; the code raises
`ValueError` at the unpacking `for fname, lname, email, number in reader`
(outside the per-row `try`), aborting the batch with `failed_count = 0`. -/
theorem c2_counterexample :
    populate_from_csv_file StudentManager.empty [["first", "last", "email"]]
        false false []
      = ⟨StudentManager.empty, 0, 0, some CsvAbort.valueError⟩ ∧
    (populate_from_csv_file StudentManager.empty [["first", "last", "email"]]
        false false []).failed_count ≠ 1 ∧
    (populate_from_csv_file StudentManager.empty [["first", "last", "email"]]
        false false []).abort ≠ none := by
  refine ⟨rfl, by decide, by decide⟩

/-- **C9.** The autosave loop's first `n` iterations are exactly `n` repetitions
of "sleep the configured period, then save"; the configured period defaults to
600 seconds; and the registered shutdown hook saves unconditionally, whatever
the manager state. -/
theorem c9_autosave_schedule :
    AUTOSAVE_INTERVAL none = some 600 ∧
    (∀ P n, autosaveEvents P n =
      (List.replicate n [BotEvent.sleep P, BotEvent.save]).flatten) ∧
    (∀ m, atexitHook m = BotEvent.save) := by
  refine ⟨rfl, ?_, fun _ => rfl⟩
  intro P n
  induction n with
  | zero => rfl
  | succ k ih =>
    rw [autosaveEvents, ih, List.replicate_succ', List.flatten_append]
    simp

end Comp3000
